import Mathlib

/-!
Verification of `lazy_tensor_core/csrc/ops/ltc_ops.h`: the `OpKindWrapper`
class, a lazily-memoized, `std::call_once`-guarded handle to an operator-kind
tag looked up in the external registry `torch::lazy::OpKind::Get`.

The embedding models the wrapper's observable state explicitly:

* `OpKind` stands for the external `torch::lazy::OpKind` value type (opaque
  here; it carries the interned qualified name, with decidable equality, and a
  default value standing for the default-constructed `OpKind()`).
* `OpKindWrapper` carries the source fields `name_`, `op_kind_` and the
  consumed/not-consumed state of the `once_` flag, plus two ghost
  instrumentation counters: `lookups` counts invocations of the external
  `OpKind::Get`, and `writes` counts assignments to `op_kind_`.
* The external registry is a parameter `Get : String → Except ε OpKind`; an
  `Except.error` outcome models the lookup throwing.  Per the C++ standard,
  `std::call_once` does not consume the flag when the callable exits by
  exception, which is why the error branch of `OpKindWrapper.get` leaves
  `once_` as `false`.
* Concurrency (`std::call_once` under racing threads) is modelled separately
  by a small-step interleaving semantics: see `Config`, `stepThread`, `run`
  below.
-/

deriving instance DecidableEq for Except

namespace LtcOps

/-- Model of the external `torch::lazy::OpKind` value: an opaque tag carrying
the interned qualified operator name. -/
structure OpKind where
  op : String
deriving DecidableEq

/-- The default-constructed `torch::lazy::OpKind()` stored in `op_kind_`
before the first resolution writes it. -/
def OpKind.default : OpKind := ⟨""⟩

/-- State of one `OpKindWrapper` instance (fields `name_`, `op_kind_`,
`once_` of the source class), with ghost counters `lookups` (number of calls
to the external `OpKind::Get`) and `writes` (number of assignments to
`op_kind_`).  `once_ = true` means the `std::once_flag` has been consumed by a
successful run of the initialization lambda. -/
structure OpKindWrapper (ε : Type) where
  name_ : String
  op_kind_ : OpKind
  once_ : Bool
  lookups : Nat
  writes : Nat
deriving DecidableEq

/-- The constructor `OpKindWrapper(const char* name) : name_(name) {}`: it
stores the name and leaves `op_kind_` default-constructed and the once-flag
unconsumed; the ghost counters record that no lookup and no write to
`op_kind_` has happened. -/
def OpKindWrapper.ofName {ε : Type} (name : String) : OpKindWrapper ε :=
  { name_ := name, op_kind_ := OpKind.default, once_ := false,
    lookups := 0, writes := 0 }

/-- `OpKindWrapper::get`: `std::call_once(once_, [this]() { op_kind_ =
torch::lazy::OpKind::Get(name_); }); return op_kind_;`.  Returns the result
of the call together with the updated wrapper state.  If the flag is already
consumed the cached `op_kind_` is returned with no state change.  Otherwise
the external lookup runs: on success it writes `op_kind_`, consumes the flag
and returns the value; on an exception (`Except.error`) the flag is NOT
consumed (C++ `std::call_once` semantics for an exceptional exit) and the
error propagates unchanged. -/
def OpKindWrapper.get {ε : Type} (s : OpKindWrapper ε)
    (Get : String → Except ε OpKind) : Except ε OpKind × OpKindWrapper ε :=
  if s.once_ then
    (Except.ok s.op_kind_, s)
  else
    match Get s.name_ with
    | Except.ok k =>
        (Except.ok k,
         { name_ := s.name_, op_kind_ := k, once_ := true,
           lookups := s.lookups + 1, writes := s.writes + 1 })
    | Except.error e =>
        (Except.error e,
         { name_ := s.name_, op_kind_ := s.op_kind_, once_ := false,
           lookups := s.lookups + 1, writes := s.writes })

/-- `operator*() const { return get(); }` -/
def OpKindWrapper.deref {ε : Type} (s : OpKindWrapper ε)
    (Get : String → Except ε OpKind) : Except ε OpKind × OpKindWrapper ε :=
  s.get Get

/-- `operator torch::lazy::OpKind() const { return get(); }` -/
def OpKindWrapper.toOpKind {ε : Type} (s : OpKindWrapper ε)
    (Get : String → Except ε OpKind) : Except ε OpKind × OpKindWrapper ε :=
  s.get Get

/-- The two public access paths to the cached value. -/
inductive Access
  | star
  | conv
deriving DecidableEq

/-- Dispatch of one public access: `Access.star` is `operator*`,
`Access.conv` is the implicit conversion once. -/
def OpKindWrapper.applyAccess {ε : Type} (s : OpKindWrapper ε)
    (Get : String → Except ε OpKind) :
    Access → Except ε OpKind × OpKindWrapper ε
  | Access.star => s.deref Get
  | Access.conv => s.toOpKind Get

/-- Run a sequence of public accesses on one wrapper instance, collecting the
returned values and threading the state. -/
def OpKindWrapper.runAccesses {ε : Type} (Get : String → Except ε OpKind) :
    List Access → OpKindWrapper ε →
    List (Except ε OpKind) × OpKindWrapper ε
  | [], s => ([], s)
  | a :: l, s =>
    let p := s.applyAccess Get a
    let q := OpKindWrapper.runAccesses Get l p.2
    (p.1 :: q.1, q.2)

/-- A concrete registry for witnesses: every name succeeds and resolves to
its own interned tag (this matches `OpKind::Get`, which interns the qualified
name). -/
def demoGet : String → Except String OpKind := fun s => Except.ok ⟨s⟩

/-- A concrete failing registry for witnesses: every lookup throws. -/
def failGet : String → Except String OpKind :=
  fun _ => Except.error "registry lookup failed"

/-!
Interleaving model of `get()` under N racing threads.

`std::call_once` on a `std::once_flag` is modelled by a three-state shared
flag: `notRun` (flag untouched), `running` (one thread has entered the
passive-then-active protocol and is executing the lambda; per the C++
contract all other callers block until it finishes), `completed` (flag
consumed).  The executing thread takes two separate steps — first the lookup
plus the write to `op_kind_`, then the consumption of the flag — so the model
exhibits the happens-before edge: `op_kind_` is fully written before any
other thread can observe `completed` and read it.  The registry lookup is
total here (the concurrency property assumes the lookup returns). -/

/-- Local state of one thread calling `get()` on the shared wrapper. -/
inductive TStatus
  | start
  | owner
  | wrote (k : OpKind)
  | done (k : OpKind)
deriving DecidableEq

/-- Shared state of the `std::once_flag`. -/
inductive OnceState
  | notRun
  | running
  | completed
deriving DecidableEq

/-- Shared configuration: one wrapper instance, `n` calling threads.
`lookups` is the ghost count of invocations of the external lookup. -/
structure Config (n : Nat) where
  threads : Fin n → TStatus
  once : OnceState
  op_kind_ : OpKind
  lookups : Nat
  name_ : String

/-- The configuration right after `OpKindWrapper(name)` is constructed and
`n` threads are each about to call `get()`. -/
def initConfig (n : Nat) (nm : String) : Config n :=
  { threads := fun _ => TStatus.start, once := OnceState.notRun,
    op_kind_ := OpKind.default, lookups := 0, name_ := nm }

/-- One step of thread `i`.  `none` means the thread cannot move: it is
either finished, or blocked inside `std::call_once` waiting for the in-flight
execution of the lambda to complete (`once = running`). -/
def stepThread {n : Nat} (Get : String → OpKind) (i : Fin n)
    (c : Config n) : Option (Config n) :=
  match c.threads i with
  | TStatus.start =>
    match c.once with
    | OnceState.notRun =>
        some { c with threads := Function.update c.threads i TStatus.owner,
                      once := OnceState.running }
    | OnceState.running => none
    | OnceState.completed =>
        some { c with
                 threads := Function.update c.threads i
                   (TStatus.done c.op_kind_) }
  | TStatus.owner =>
      some { c with
               threads := Function.update c.threads i
                 (TStatus.wrote (Get c.name_)),
               op_kind_ := Get c.name_, lookups := c.lookups + 1 }
  | TStatus.wrote k =>
      some { c with threads := Function.update c.threads i (TStatus.done k),
                    once := OnceState.completed }
  | TStatus.done _ => none

/-- Run a schedule: each entry names the thread that attempts the next step
(attempts by blocked or finished threads are no-ops). -/
def run {n : Nat} (Get : String → OpKind) (sched : List (Fin n))
    (c : Config n) : Config n :=
  sched.foldl (fun c i => (stepThread Get i c).getD c) c

/-- Reachability invariant of the interleaving model: the three phases of the
once-flag pin down the lookup count, the cached value and every thread's
local state. -/
def Inv {n : Nat} (Get : String → OpKind) (nm : String)
    (c : Config n) : Prop :=
  c.name_ = nm ∧
  ((c.once = OnceState.notRun ∧ c.lookups = 0 ∧
      ∀ i, c.threads i = TStatus.start) ∨
   (c.once = OnceState.running ∧ ∃ j,
      ((c.threads j = TStatus.owner ∧ c.lookups = 0) ∨
       (c.threads j = TStatus.wrote (Get nm) ∧ c.lookups = 1 ∧
          c.op_kind_ = Get nm)) ∧
      ∀ i, i ≠ j → c.threads i = TStatus.start) ∨
   (c.once = OnceState.completed ∧ c.lookups = 1 ∧ c.op_kind_ = Get nm ∧
      ∀ i, c.threads i = TStatus.start ∨ c.threads i = TStatus.done (Get nm)))

/-- A total registry for concurrent witnesses: resolves a name to its
interned tag. -/
def demoKindGet : String → OpKind := fun s => ⟨s⟩

/-- A concrete two-thread schedule for witnesses: thread 0 enters, looks up,
publishes; thread 1 then reads the cached value. -/
def sched2 : List (Fin 2) := [0, 1, 0, 1, 0, 1]

/-- Good states reached from a fresh wrapper whose name resolves to `k`:
the name still resolves to `k`, the cache (if populated) holds `k`, and the
lookup count is pinned by the once-flag. -/
def SeqOk {ε : Type} (Get : String → Except ε OpKind) (k : OpKind)
    (s : OpKindWrapper ε) : Prop :=
  Get s.name_ = Except.ok k ∧ (s.once_ = true → s.op_kind_ = k) ∧
  s.lookups = (if s.once_ then 1 else 0)

/-!
Pointer-level model of the constructor, for the claim about `name_` being
the caller's `const char*` itself.  A `const char*` is an address into the
host memory; `mem : CharPtr → String` gives the string a pointer points to
at a given moment.  The wrapper state holds only the address — no string —
so resolution must dereference through the current memory.
-/

/-- Model of a `const char*`: an address into the host's string memory. -/
structure CharPtr where
  addr : Nat
deriving DecidableEq

/-- Wrapper state at pointer level: `name_` is the stored `const char*`.
`lookups` again counts external lookups. -/
structure OpKindWrapperP (ε : Type) where
  name_ : CharPtr
  op_kind_ : OpKind
  once_ : Bool
  lookups : Nat
deriving DecidableEq

/-- The constructor at pointer level: `name_(name)` stores the address
itself; everything else is default-initialized and no lookup runs. -/
def OpKindWrapperP.ofPtr {ε : Type} (p : CharPtr) : OpKindWrapperP ε :=
  { name_ := p, op_kind_ := OpKind.default, once_ := false, lookups := 0 }

/-- `get()` at pointer level: the lambda evaluates
`torch::lazy::OpKind::Get(name_)`, reading the string behind the stored
pointer out of the memory as it is at call time. -/
def OpKindWrapperP.get {ε : Type} (s : OpKindWrapperP ε)
    (mem : CharPtr → String) (Get : String → Except ε OpKind) :
    Except ε OpKind × OpKindWrapperP ε :=
  if s.once_ then
    (Except.ok s.op_kind_, s)
  else
    match Get (mem s.name_) with
    | Except.ok k =>
        (Except.ok k,
         { name_ := s.name_, op_kind_ := k, once_ := true,
           lookups := s.lookups + 1 })
    | Except.error e =>
        (Except.error e,
         { name_ := s.name_, op_kind_ := s.op_kind_, once_ := false,
           lookups := s.lookups + 1 })

/-!
Helper lemmas about the sequential model.
-/

/-- A consumed once-flag makes `get` a pure read: the cached value is
returned and the state is untouched. -/
theorem get_of_once {ε : Type} (s : OpKindWrapper ε)
    (Get : String → Except ε OpKind) (h : s.once_ = true) :
    s.get Get = (Except.ok s.op_kind_, s) := by
  simp [OpKindWrapper.get, h]

/-- Both public accessors are the private `get`. -/
theorem applyAccess_eq_get {ε : Type} (s : OpKindWrapper ε)
    (Get : String → Except ε OpKind) (a : Access) :
    s.applyAccess Get a = s.get Get := by
  cases a <;> rfl

/-- One `get` from a good state returns `k` and stays good. -/
theorem get_seqOk {ε : Type} {Get : String → Except ε OpKind} {k : OpKind}
    {s : OpKindWrapper ε} (h : SeqOk Get k s) :
    (s.get Get).1 = Except.ok k ∧ SeqOk Get k (s.get Get).2 := by
  obtain ⟨hres, hcache, hcount⟩ := h
  by_cases ho : s.once_ = true
  · rw [get_of_once s Get ho, hcache ho]
    exact ⟨rfl, hres, hcache, hcount⟩
  · simp only [Bool.not_eq_true] at ho
    have hl0 : s.lookups = 0 := by simpa [ho] using hcount
    simp only [OpKindWrapper.get, ho, Bool.false_eq_true, if_false, hres]
    exact ⟨trivial, hres, fun _ => rfl, by simp [hl0]⟩

/-- Any access sequence from a good state returns only `k` and stays good. -/
theorem runAccesses_seqOk {ε : Type} {Get : String → Except ε OpKind}
    {k : OpKind} (l : List Access) {s : OpKindWrapper ε} (h : SeqOk Get k s) :
    (∀ r ∈ (OpKindWrapper.runAccesses Get l s).1, r = Except.ok k) ∧
    SeqOk Get k (OpKindWrapper.runAccesses Get l s).2 := by
  induction l generalizing s with
  | nil => exact ⟨by simp [OpKindWrapper.runAccesses], h⟩
  | cons a l ih =>
    obtain ⟨hr, hs⟩ := get_seqOk h
    obtain ⟨hl, hl2⟩ := ih hs
    refine ⟨?_, ?_⟩
    · intro r hrl
      simp only [OpKindWrapper.runAccesses, applyAccess_eq_get,
        List.mem_cons] at hrl
      rcases hrl with rfl | hrl
      · exact hr
      · exact hl r hrl
    · simpa [OpKindWrapper.runAccesses, applyAccess_eq_get] using hl2

/-- With the once-flag consumed, any access sequence is a pure read: the
state never changes and every returned value is the cached one. -/
theorem runAccesses_stable {ε : Type} (Get : String → Except ε OpKind)
    (l : List Access) (s : OpKindWrapper ε) (h : s.once_ = true) :
    OpKindWrapper.runAccesses Get l s =
      (List.replicate l.length (Except.ok s.op_kind_), s) := by
  induction l with
  | nil => rfl
  | cons a l ih =>
    simp [OpKindWrapper.runAccesses, applyAccess_eq_get, get_of_once s Get h,
      ih, List.replicate_succ]

/-- The write counter is pinned by the once-flag, for any registry
behaviour (including lookups that throw). -/
theorem runAccesses_writes {ε : Type} (Get : String → Except ε OpKind)
    (l : List Access) (s : OpKindWrapper ε)
    (h : s.writes = if s.once_ then 1 else 0) :
    (OpKindWrapper.runAccesses Get l s).2.writes =
      if (OpKindWrapper.runAccesses Get l s).2.once_ then 1 else 0 := by
  induction l generalizing s with
  | nil => exact h
  | cons a l ih =>
    simp only [OpKindWrapper.runAccesses, applyAccess_eq_get]
    apply ih
    by_cases ho : s.once_ = true
    · simp [get_of_once s Get ho, h]
    · simp only [Bool.not_eq_true] at ho
      simp only [ho, if_false] at h
      cases hres : Get s.name_ <;> simp [OpKindWrapper.get, ho, hres, h]

/-- No operation changes `name_`. -/
theorem get_name {ε : Type} (s : OpKindWrapper ε)
    (Get : String → Except ε OpKind) : (s.get Get).2.name_ = s.name_ := by
  by_cases ho : s.once_ = true
  · simp [get_of_once s Get ho]
  · simp only [Bool.not_eq_true] at ho
    cases hres : Get s.name_ <;> simp [OpKindWrapper.get, ho, hres]

/-- No access sequence changes `name_`. -/
theorem runAccesses_name {ε : Type} (Get : String → Except ε OpKind)
    (l : List Access) (s : OpKindWrapper ε) :
    (OpKindWrapper.runAccesses Get l s).2.name_ = s.name_ := by
  induction l generalizing s with
  | nil => rfl
  | cons a l ih =>
    simp only [OpKindWrapper.runAccesses, applyAccess_eq_get]
    rw [ih, get_name]

/-!
Helper lemmas about the interleaving model.
-/

/-- The initial configuration satisfies the invariant. -/
theorem inv_initConfig {n : Nat} (Get : String → OpKind) (nm : String) :
    Inv Get nm (initConfig n nm) :=
  ⟨rfl, Or.inl ⟨rfl, rfl, fun _ => rfl⟩⟩

/-- Every step of every thread preserves the invariant. -/
theorem inv_step {n : Nat} (Get : String → OpKind) (nm : String)
    (c : Config n) (i : Fin n) (h : Inv Get nm c) :
    Inv Get nm ((stepThread Get i c).getD c) := by
  obtain ⟨hname, hcase⟩ := h
  rcases hcase with ⟨ho, hl, ht⟩ | ⟨ho, j, hj, hothers⟩ | ⟨ho, hl, hk, ht⟩
  · -- once-flag untouched: thread i enters call_once and becomes the owner
    simp only [stepThread, ht i, ho, Option.getD_some]
    refine ⟨hname, Or.inr (Or.inl ⟨rfl, i, Or.inl ⟨?_, hl⟩, ?_⟩)⟩
    · simp [Function.update_same]
    · intro i' hii
      simp [Function.update_noteq hii, ht i']
  · -- lambda in flight: only the owner can move
    by_cases hij : i = j
    · subst hij
      rcases hj with ⟨hjo, hl0⟩ | ⟨hjw, hl1, hkw⟩
      · -- the owner performs the lookup and writes op_kind_
        simp only [stepThread, hjo, Option.getD_some]
        refine ⟨hname, Or.inr (Or.inl ⟨ho, i, Or.inr ⟨?_, ?_, ?_⟩, ?_⟩)⟩
        · simp [Function.update_same, hname]
        · simp [hl0]
        · simp [hname]
        · intro i' hii
          simp [Function.update_noteq hii, hothers i' hii]
      · -- the owner consumes the flag, publishing the written value
        simp only [stepThread, hjw, Option.getD_some]
        refine ⟨hname, Or.inr (Or.inr ⟨rfl, hl1, hkw, ?_⟩)⟩
        intro i'
        by_cases hii : i' = i
        · subst hii
          simp [Function.update_same]
        · simp [Function.update_noteq hii, hothers i' hii]
    · -- a non-owner is blocked inside call_once: no step happens
      have hstart := hothers i hij
      simp only [stepThread, hstart, ho, Option.getD_none]
      exact ⟨hname, Or.inr (Or.inl ⟨ho, j, hj, hothers⟩)⟩
  · -- flag consumed: readers copy the published value, finished threads rest
    rcases ht i with hti | hti
    · simp only [stepThread, hti, ho, Option.getD_some]
      refine ⟨hname, Or.inr (Or.inr ⟨rfl, hl, hk, ?_⟩)⟩
      intro i'
      by_cases hii : i' = i
      · subst hii
        simp [Function.update_same, hk]
      · simp only [ne_eq, hii, not_false_iff, Function.update_noteq]
        exact ht i'
    · simp only [stepThread, hti, Option.getD_none]
      exact ⟨hname, Or.inr (Or.inr ⟨ho, hl, hk, ht⟩)⟩

/-- Any schedule preserves the invariant. -/
theorem inv_run {n : Nat} (Get : String → OpKind) (nm : String)
    (sched : List (Fin n)) (c : Config n) (h : Inv Get nm c) :
    Inv Get nm (run Get sched c) := by
  induction sched generalizing c with
  | nil => exact h
  | cons i l ih =>
    simp only [run, List.foldl_cons] at ih ⊢
    exact ih _ (inv_step Get nm c i h)

/-!
Claim theorems.
-/

/-- Claim C1: for every sequence of calls to `resolve()` (`operator*` or the
implicit conversion) on the same `OpKindWrapper` instance, the underlying
registry lookup `OpKind::Get(name)` is invoked at most once, and every call
returns a value equal to every other call's returned value (all equal to the
registry's value `k` for the wrapper's name). -/
theorem opKindWrapper_memoizes {ε : Type} (Get : String → Except ε OpKind)
    (nm : String) (k : OpKind) (hk : Get nm = Except.ok k)
    (l : List Access) :
    (OpKindWrapper.runAccesses Get l (OpKindWrapper.ofName nm)).2.lookups ≤ 1 ∧
    ∀ r ∈ (OpKindWrapper.runAccesses Get l (OpKindWrapper.ofName nm)).1,
      r = Except.ok k := by
  have h0 : SeqOk Get k (OpKindWrapper.ofName (ε := ε) nm) :=
    ⟨hk, by intro h; simp [OpKindWrapper.ofName] at h, by
      simp [OpKindWrapper.ofName]⟩
  obtain ⟨hall, _, _, hcount⟩ := runAccesses_seqOk l h0
  refine ⟨?_, hall⟩
  rw [hcount]
  split <;> omega

/-- Witness for C1 at a concrete registry, name and access sequence. -/
theorem opKindWrapper_memoizes_witness :
    demoGet "ltc_select" = Except.ok ⟨"ltc_select"⟩ ∧
    ((OpKindWrapper.runAccesses demoGet [Access.star, Access.conv, Access.star]
        (OpKindWrapper.ofName "ltc_select")).2.lookups ≤ 1 ∧
     ∀ r ∈ (OpKindWrapper.runAccesses demoGet
        [Access.star, Access.conv, Access.star]
        (OpKindWrapper.ofName "ltc_select")).1,
       r = Except.ok ⟨"ltc_select"⟩) :=
  ⟨by decide,
   opKindWrapper_memoizes demoGet "ltc_select" ⟨"ltc_select"⟩ (by decide)
     [Access.star, Access.conv, Access.star]⟩

/-- Claim C3: constructing an `OpKindWrapper` performs zero registry lookups
and leaves the once-flag unconsumed; the lookup happens exactly at the first
`get()` (for any registry behaviour, succeeding or throwing), never at
construction time. -/
theorem opKindWrapper_ctor_no_lookup {ε : Type}
    (Get : String → Except ε OpKind) (nm : String) :
    (OpKindWrapper.ofName (ε := ε) nm).lookups = 0 ∧
    (OpKindWrapper.ofName (ε := ε) nm).once_ = false ∧
    ((OpKindWrapper.ofName (ε := ε) nm).get Get).2.lookups = 1 := by
  refine ⟨rfl, rfl, ?_⟩
  cases hres : Get nm <;>
    simp [OpKindWrapper.get, OpKindWrapper.ofName, hres]

/-- Claim C4: `op_kind_` is written at most once over any access sequence on
a fresh wrapper (any registry behaviour), and once the flag is consumed no
operation changes the state: every later reader gets exactly the one cached
value. -/
theorem opKindWrapper_single_write {ε : Type}
    (Get : String → Except ε OpKind) (nm : String) (l : List Access)
    (s : OpKindWrapper ε) (hs : s.once_ = true) :
    (OpKindWrapper.runAccesses Get l (OpKindWrapper.ofName nm)).2.writes ≤ 1 ∧
    OpKindWrapper.runAccesses Get l s =
      (List.replicate l.length (Except.ok s.op_kind_), s) := by
  refine ⟨?_, runAccesses_stable Get l s hs⟩
  have h := runAccesses_writes Get l (OpKindWrapper.ofName nm)
    (by simp [OpKindWrapper.ofName])
  rw [h]
  split <;> omega

/-- Witness for C4 at a concrete registry, access list and resolved
wrapper state. -/
theorem opKindWrapper_single_write_witness :
    (OpKindWrapper.mk "ltc_cast" ⟨"ltc_cast"⟩ true 1 1 :
        OpKindWrapper String).once_ = true ∧
    ((OpKindWrapper.runAccesses demoGet [Access.star]
        (OpKindWrapper.ofName "ltc_cast")).2.writes ≤ 1 ∧
     OpKindWrapper.runAccesses demoGet [Access.star]
        (OpKindWrapper.mk "ltc_cast" ⟨"ltc_cast"⟩ true 1 1) =
       (List.replicate 1 (Except.ok ⟨"ltc_cast"⟩),
        OpKindWrapper.mk "ltc_cast" ⟨"ltc_cast"⟩ true 1 1)) :=
  ⟨rfl,
   opKindWrapper_single_write demoGet "ltc_cast" [Access.star]
     (OpKindWrapper.mk "ltc_cast" ⟨"ltc_cast"⟩ true 1 1) rfl⟩

/-- Claim C5: when the registry lookup throws on a resolution attempt, the
failure propagates unchanged as the result of that call; the wrapper catches
and translates nothing, performs exactly one lookup within the call (no
retry inside it), writes nothing and provides no fallback value. -/
theorem opKindWrapper_propagates_failure {ε : Type}
    (Get : String → Except ε OpKind) (s : OpKindWrapper ε) (e : ε)
    (h0 : s.once_ = false) (he : Get s.name_ = Except.error e) :
    s.get Get =
      (Except.error e,
       { name_ := s.name_, op_kind_ := s.op_kind_, once_ := false,
         lookups := s.lookups + 1, writes := s.writes }) := by
  simp [OpKindWrapper.get, h0, he]

/-- Witness for C5 at a concrete failing registry. -/
theorem opKindWrapper_propagates_failure_witness :
    (OpKindWrapper.ofName "ltc_nms" : OpKindWrapper String).once_ = false ∧
    failGet (OpKindWrapper.ofName "ltc_nms" :
        OpKindWrapper String).name_ = Except.error "registry lookup failed" ∧
    (OpKindWrapper.ofName "ltc_nms" : OpKindWrapper String).get failGet =
      (Except.error "registry lookup failed",
       { name_ := "ltc_nms", op_kind_ := OpKind.default, once_ := false,
         lookups := 1, writes := 0 }) :=
  ⟨rfl, rfl,
   opKindWrapper_propagates_failure failGet
     (OpKindWrapper.ofName "ltc_nms") "registry lookup failed" rfl rfl⟩

/-- Claim C6: an exceptional exit from the initialization lambda does not
consume the `std::once_flag`, so after a failed first attempt a later `get`
on the same wrapper invokes the registry again (here: a second lookup is
counted, the fresh outcome is returned rather than a cached failure, and if
the registry now succeeds — registry `G` — the wrapper resolves normally
instead of being permanently poisoned). -/
theorem opKindWrapper_retries_after_failure {ε : Type}
    (Get G : String → Except ε OpKind) (s : OpKindWrapper ε) (e : ε)
    (k : OpKind) (h0 : s.once_ = false) (he : Get s.name_ = Except.error e)
    (hk : G s.name_ = Except.ok k) :
    (s.get Get).2.once_ = false ∧
    ((s.get Get).2.get Get).1 = Except.error e ∧
    ((s.get Get).2.get Get).2.lookups = s.lookups + 2 ∧
    ((s.get Get).2.get G).1 = Except.ok k ∧
    ((s.get Get).2.get G).2.once_ = true := by
  have hstep : s.get Get =
      (Except.error e,
       { name_ := s.name_, op_kind_ := s.op_kind_, once_ := false,
         lookups := s.lookups + 1, writes := s.writes }) :=
    opKindWrapper_propagates_failure Get s e h0 he
  rw [hstep]
  exact ⟨rfl, by simp [OpKindWrapper.get, he], by simp [OpKindWrapper.get, he],
    by simp [OpKindWrapper.get, hk], by simp [OpKindWrapper.get, hk]⟩

/-- Witness for C6: the registry throws once, then a rebuilt registry
succeeds; the second attempt runs the lookup again. -/
theorem opKindWrapper_retries_after_failure_witness :
    (OpKindWrapper.ofName "ltc_cast" : OpKindWrapper String).once_ = false ∧
    failGet "ltc_cast" = Except.error "registry lookup failed" ∧
    demoGet "ltc_cast" = Except.ok ⟨"ltc_cast"⟩ ∧
    (((OpKindWrapper.ofName "ltc_cast" :
         OpKindWrapper String).get failGet).2.once_ = false ∧
     (((OpKindWrapper.ofName "ltc_cast" :
         OpKindWrapper String).get failGet).2.get failGet).1 =
       Except.error "registry lookup failed" ∧
     (((OpKindWrapper.ofName "ltc_cast" :
         OpKindWrapper String).get failGet).2.get failGet).2.lookups = 0 + 2 ∧
     (((OpKindWrapper.ofName "ltc_cast" :
         OpKindWrapper String).get failGet).2.get demoGet).1 =
       Except.ok ⟨"ltc_cast"⟩ ∧
     (((OpKindWrapper.ofName "ltc_cast" :
         OpKindWrapper String).get failGet).2.get demoGet).2.once_ = true) :=
  ⟨rfl, rfl, rfl,
   opKindWrapper_retries_after_failure failGet demoGet
     (OpKindWrapper.ofName "ltc_cast") "registry lookup failed" ⟨"ltc_cast"⟩
     rfl rfl rfl⟩

/-- Claim C7: two wrappers constructed with different names resolve to
unequal values, under the precondition that the registry assigns distinct
kind values to distinct names. -/
theorem opKindWrapper_distinct_names {ε : Type}
    (Get : String → Except ε OpKind) (nm1 nm2 : String) (k1 k2 : OpKind)
    (hne : nm1 ≠ nm2)
    (hreg : ∀ a b ka kb, a ≠ b → Get a = Except.ok ka →
      Get b = Except.ok kb → ka ≠ kb)
    (h1 : Get nm1 = Except.ok k1) (h2 : Get nm2 = Except.ok k2) :
    ((OpKindWrapper.ofName nm1 : OpKindWrapper ε).get Get).1 ≠
      ((OpKindWrapper.ofName nm2 : OpKindWrapper ε).get Get).1 := by
  have e1 : ((OpKindWrapper.ofName nm1 : OpKindWrapper ε).get Get).1 =
      Except.ok k1 := by
    simp [OpKindWrapper.get, OpKindWrapper.ofName, h1]
  have e2 : ((OpKindWrapper.ofName nm2 : OpKindWrapper ε).get Get).1 =
      Except.ok k2 := by
    simp [OpKindWrapper.get, OpKindWrapper.ofName, h2]
  rw [e1, e2]
  intro hcontra
  exact hreg nm1 nm2 k1 k2 hne h1 h2 (Except.ok.inj hcontra)

/-- Witness for C7 on the interning registry and two real operator names. -/
theorem opKindWrapper_distinct_names_witness :
    ("ltc_select" ≠ "ltc_cast") ∧
    demoGet "ltc_select" = Except.ok ⟨"ltc_select"⟩ ∧
    demoGet "ltc_cast" = Except.ok ⟨"ltc_cast"⟩ ∧
    ((OpKindWrapper.ofName "ltc_select" : OpKindWrapper String).get
        demoGet).1 ≠
      ((OpKindWrapper.ofName "ltc_cast" : OpKindWrapper String).get
        demoGet).1 :=
  ⟨by decide, rfl, rfl,
   opKindWrapper_distinct_names demoGet "ltc_select" "ltc_cast"
    ⟨"ltc_select"⟩ ⟨"ltc_cast"⟩ (by decide)
    (by
      intro a b ka kb hab ha hb hkk
      simp only [demoGet, Except.ok.injEq] at ha hb
      exact hab (congrArg OpKind.op ((ha.trans hkk).trans hb.symm)))
    rfl rfl⟩

/-- Claim C8: `operator*` and the implicit conversion both delegate to the
private `get()`: on any wrapper in any state they return the same value,
produce the same successor state, and hence have the same at-most-one-lookup
side effect as `get` and as each other. -/
theorem opKindWrapper_accessors_agree {ε : Type}
    (Get : String → Except ε OpKind) (s : OpKindWrapper ε) :
    s.deref Get = s.get Get ∧ s.toOpKind Get = s.get Get ∧
    s.deref Get = s.toOpKind Get :=
  ⟨rfl, rfl, rfl⟩

/-- Claim C9: the stored operator name never changes after construction: no
single operation (`get`, `operator*`, the implicit conversion) and no access
sequence modifies `name_`. -/
theorem opKindWrapper_name_immutable {ε : Type}
    (Get : String → Except ε OpKind) (s : OpKindWrapper ε)
    (l : List Access) :
    (s.get Get).2.name_ = s.name_ ∧ (s.deref Get).2.name_ = s.name_ ∧
    (s.toOpKind Get).2.name_ = s.name_ ∧
    (OpKindWrapper.runAccesses Get l s).2.name_ = s.name_ :=
  ⟨get_name s Get, get_name s Get, get_name s Get,
   runAccesses_name Get l s⟩

/-- Claim C10: the constructor stores the caller-supplied name pointer
itself — the state after construction is exactly the given address plus
default-initialized fields, so it holds no copy of the pointed-to string and
has no other side effect (zero lookups, flag unconsumed) — and consequently
the first resolution dereferences the pointer against the memory as it is at
resolution time, which is why the name must remain valid for the handle's
lifetime. -/
theorem opKindWrapperP_ctor_stores_pointer {ε : Type} (p : CharPtr)
    (mem : CharPtr → String) (Get : String → Except ε OpKind) :
    (OpKindWrapperP.ofPtr p : OpKindWrapperP ε) =
      { name_ := p, op_kind_ := OpKind.default, once_ := false,
        lookups := 0 } ∧
    ((OpKindWrapperP.ofPtr p : OpKindWrapperP ε).get mem Get).1 =
      Get (mem p) := by
  refine ⟨rfl, ?_⟩
  cases hres : Get (mem p) <;>
    simp [OpKindWrapperP.get, OpKindWrapperP.ofPtr, hres]

/-- Claim C2: in the interleaving model of `std::call_once`, for any number
of threads `n ≥ 2` racing `get()` on a freshly constructed wrapper and any
schedule that lets every thread finish, exactly one registry lookup has
executed, every thread finished with the same value `Get nm`, and a thread
that has not yet entered cannot take any step while the first resolution is
in flight (it blocks until the owner completes). -/
theorem opKindWrapper_concurrent_once (n : Nat) (hn : 2 ≤ n)
    (Get : String → OpKind) (nm : String) (sched : List (Fin n))
    (ks : Fin n → OpKind)
    (hdone : ∀ i, (run Get sched (initConfig n nm)).threads i =
      TStatus.done (ks i)) :
    (run Get sched (initConfig n nm)).lookups = 1 ∧
    (∀ i, ks i = Get nm) ∧
    (∀ (c : Config n) (i : Fin n), c.once = OnceState.running →
      c.threads i = TStatus.start → stepThread Get i c = none) := by
  have hinv : Inv Get nm (run Get sched (initConfig n nm)) :=
    inv_run Get nm sched (initConfig n nm) (inv_initConfig Get nm)
  obtain ⟨-, hcase⟩ := hinv
  have hpos : 0 < n := by omega
  have hblock : ∀ (c : Config n) (i : Fin n),
      c.once = OnceState.running → c.threads i = TStatus.start →
      stepThread Get i c = none := by
    intro c i h1 h2
    simp [stepThread, h2, h1]
  rcases hcase with ⟨-, -, ht⟩ | ⟨-, j, hj, -⟩ | ⟨-, hl, -, ht⟩
  · exact absurd ((ht ⟨0, hpos⟩).symm.trans (hdone ⟨0, hpos⟩))
      (by simp)
  · rcases hj with ⟨hjo, -⟩ | ⟨hjw, -, -⟩
    · exact absurd (hjo.symm.trans (hdone j)) (by simp)
    · exact absurd (hjw.symm.trans (hdone j)) (by simp)
  · refine ⟨hl, ?_, hblock⟩
    intro i
    rcases ht i with hti | hti
    · exact absurd (hti.symm.trans (hdone i)) (by simp)
    · exact TStatus.done.inj ((hdone i).symm.trans hti)

/-- Witness for C2: two threads, a schedule on which thread 1 is blocked
twice while thread 0 resolves, then reads the cached value. -/
theorem opKindWrapper_concurrent_once_witness :
    (2 ≤ 2) ∧
    (∀ i : Fin 2, (run demoKindGet sched2 (initConfig 2 "ltc_select")).threads
        i = TStatus.done (OpKind.mk "ltc_select")) ∧
    ((run demoKindGet sched2 (initConfig 2 "ltc_select")).lookups = 1 ∧
     (∀ _i : Fin 2, OpKind.mk "ltc_select" = demoKindGet "ltc_select") ∧
     (∀ (c : Config 2) (i : Fin 2), c.once = OnceState.running →
       c.threads i = TStatus.start → stepThread demoKindGet i c = none)) :=
  ⟨by omega, by decide,
   opKindWrapper_concurrent_once 2 (by omega) demoKindGet "ltc_select" sched2
     (fun _ => OpKind.mk "ltc_select") (by decide)⟩

end LtcOps
